import Mathlib

/-!
Shallow embedding of `src/tensor.c` / `src/tensor.h`: a reference-counted
flat float buffer (`Storage`) wrapped by n-dimensional views (`Tensor`),
with logical-to-physical index translation, zero-copy reshape and a
memoized string representation.

Modelling conventions:
* C `float` values are modelled as exact rationals; every scalar value this
  development evaluates is exactly representable, so no rounding is lost.
* The C heap is explicit: `State.storages` holds the `Storage` allocations
  (`none` = freed) and `State.strs` holds the `char*` buffers produced by
  `tensor_to_string` (`none` = freed).  Pointers are indices into these
  lists; the model never reuses an index, which is sound for reasoning
  about dangling pointers.
* `shape`, `strides` and the `Tensor` struct itself get value semantics:
  the C code always `memcpy`s shape/strides into freshly malloc'd arrays,
  so no aliasing of those arrays is observable.
* Fatal paths (`exit(EXIT_FAILURE)` after an `fprintf` diagnostic, failed
  `assert`) are modelled as `Except.error` results carrying the
  diagnostic's data; dereferencing a freed allocation (undefined behaviour
  in C) is modelled by the errors `Err.danglingStorage` and
  `Err.danglingString`.
* C `int` is modelled as unbounded `Int`; none of the verified properties
  concerns wrap-around of 32-bit arithmetic.
-/

deriving instance DecidableEq for Except

namespace CTensor

/-- Data carried by each fatal diagnostic printed by `tensor.c` before
`exit(EXIT_FAILURE)` (or by a failed `assert`). -/
inductive Err where
  /-- IndexError: Number of indices does not match the number of dimensions -/
  | dimMismatch
  /-- IndexError: index %d is out of bounds of %d — carries the (adjusted)
  offending index and the extent `shape[i]` of the offending axis. -/
  | indexOob (idx : Int) (bound : Int)
  /-- RuntimeError: cannot reshape tensor of size %d into shape ... — carries
  the storage's `data_size` and the requested shape. -/
  | reshapeSize (size : Int) (shape : List Int)
  /-- failed `assert(idx >= 0 && idx < s->data_size)` in `storage_getitem`
  or `storage_setitem`. -/
  | storageAssert
  /-- access through a pointer to a freed `Storage` (undefined behaviour in C). -/
  | danglingStorage
  /-- access through a pointer to a freed string buffer (undefined behaviour in C). -/
  | danglingString
  /-- writing the formatted string (plus its null terminator) past the end of
  the `max_len`-byte buffer tensor_to_string allocates — a heap buffer
  overflow, undefined behaviour in C. -/
  | bufferOverflow
  deriving DecidableEq

/-- Storage: simple array of floats, reference-counted (tensor.h:5-9). -/
structure Storage where
  data : List ℚ
  ref_count : Int
  deriving DecidableEq

/-- The `data_size` field of the C struct.  `storage_new` always sets it to
the length of the buffer it allocates and nothing ever changes it, so the
model derives it from the buffer. -/
def Storage.data_size (s : Storage) : Int := s.data.length

/-- The mutable heap: all `Storage` allocations and all cached repr string
allocations.  A `none` cell is a freed allocation. -/
structure State where
  storages : List (Option Storage)
  strs : List (Option String)
  deriving DecidableEq

def State.empty : State := ⟨[], []⟩

def State.getStorage (st : State) (id : Nat) : Option Storage :=
  st.storages.getD id none

def State.setStorage (st : State) (id : Nat) (c : Option Storage) : State :=
  { st with storages := st.storages.set id c }

def State.allocStorage (st : State) (s : Storage) : State × Nat :=
  ({ st with storages := st.storages ++ [some s] }, st.storages.length)

/-- storage_new (tensor.c:54-60): allocate a buffer of `size` floats,
ref_count 1.  malloc leaves the floats uninitialized, so the model takes
the arbitrary initial contents as the parameter `uninit`. -/
def storage_new (size : Int) (uninit : ℚ) : Storage :=
  { data := List.replicate size.toNat uninit, ref_count := 1 }

/-- storage_getitem (tensor.c:62-65); the `assert` is `Err.storageAssert`. -/
def storage_getitem (s : Storage) (idx : Int) : Except Err ℚ :=
  if 0 ≤ idx ∧ idx < s.data_size then .ok (s.data.getD idx.toNat 0)
  else .error .storageAssert

/-- storage_setitem (tensor.c:67-70). -/
def storage_setitem (s : Storage) (idx : Int) (val : ℚ) : Except Err Storage :=
  if 0 ≤ idx ∧ idx < s.data_size then .ok { s with data := s.data.set idx.toNat val }
  else .error .storageAssert

/-- storage_incref (tensor.c:72-74).  Increment through a dangling pointer
is undefined behaviour in C; the model leaves the state unchanged. -/
def storage_incref (st : State) (id : Nat) : State :=
  match st.getStorage id with
  | some s => st.setStorage id (some { s with ref_count := s.ref_count + 1 })
  | none => st

/-- storage_decref (tensor.c:76-82): decrement; free the buffer exactly when
the count reaches 0. -/
def storage_decref (st : State) (id : Nat) : State :=
  match st.getStorage id with
  | some s =>
      if s.ref_count - 1 = 0 then st.setStorage id none
      else st.setStorage id (some { s with ref_count := s.ref_count - 1 })
  | none => st

/-- The Tensor struct (tensor.h:12-19).  `storage` is a pointer into
`State.storages` and `repr` a pointer into `State.strs` (NULL = `none`).
`ndim` is kept as a separate field exactly as in the struct; the code
always stores the length of the shape/strides arrays there. -/
structure Tensor where
  storage : Nat
  offset : Int
  ndim : Nat
  shape : List Int
  strides : List Int
  repr : Option Nat
  deriving DecidableEq

/-- One axis of the index loop in tensor_setitem/tensor_getitem
(tensor.c:92-95, 112-115): a negative index gets `shape[i]` added, once. -/
def adjust (i b : Int) : Int := if i < 0 then i + b else i

/-- The per-axis loop of tensor_setitem/tensor_getitem (tensor.c:92-100,
112-120): adjust negative indices in place, stop at the first axis that is
still out of bounds.  Returns the mutated caller array together with the
fatal diagnostic, if any. -/
def adjustLoop : List Int → List Int → List Int × Option Err
  | i :: is, b :: bs =>
    let i' := adjust i b
    if i' < 0 ∨ b ≤ i' then (i' :: is, some (.indexOob i' b))
    else
      let r := adjustLoop is bs
      (i' :: r.1, r.2)
  | is, _ => (is, none)

/-- The summation loop of logical_to_physical: `indices[i] * strides[i]`
accumulated over the axes. -/
def sumProd : List Int → List Int → Int
  | x :: xs, r :: rs => x * r + sumProd xs rs
  | _, _ => 0

/-- logical_to_physical (tensor.c:22-29). -/
def logical_to_physical (t : Tensor) (indices : List Int) : Int :=
  t.offset + sumProd indices t.strides

/-- tensor_getitem (tensor.c:106-124).  The C caller passes the index count
separately from the array; the contract (and every call in the repository)
makes it the array's length, which the list carries itself.  Returns the
read value together with the caller's index array as mutated in place. -/
def tensor_getitem (st : State) (t : Tensor) (indices : List Int) :
    Except Err (ℚ × List Int) :=
  if indices.length ≠ t.ndim then .error .dimMismatch
  else
    match adjustLoop indices t.shape with
    | (_, some e) => .error e
    | (idx, none) =>
        match st.getStorage t.storage with
        | none => .error .danglingStorage
        | some s =>
            match storage_getitem s (logical_to_physical t idx) with
            | .error e => .error e
            | .ok v => .ok (v, idx)

/-- tensor_setitem (tensor.c:86-104).  Returns the updated heap together
with the caller's index array as mutated in place. -/
def tensor_setitem (st : State) (t : Tensor) (indices : List Int) (val : ℚ) :
    Except Err (State × List Int) :=
  if indices.length ≠ t.ndim then .error .dimMismatch
  else
    match adjustLoop indices t.shape with
    | (_, some e) => .error e
    | (idx, none) =>
        match st.getStorage t.storage with
        | none => .error .danglingStorage
        | some s =>
            match storage_setitem s (logical_to_physical t idx) val with
            | .error e => .error e
            | .ok s' => .ok (st.setStorage t.storage (some s'), idx)

/-- tensor_free (tensor.c:126-131): decref the storage and release the
shape array, the strides array and the Tensor struct (the latter three have
value semantics in the model).  Note that `t->repr` is NOT freed here. -/
def tensor_free (st : State) (t : Tensor) : State :=
  storage_decref st t.storage

/-- The stride loop shared by tensor_empty (tensor.c:187-188) and
tensor_reshape (tensor.c:246-247): `strides[ndim-1] = 1` and
`strides[i] = strides[i+1] * shape[i+1]` proceeding downwards.  For
`ndim = 0` the C code writes `strides[-1]`, which is undefined behaviour;
the model returns `[]` and the theorems restrict to non-empty shapes. -/
def computeStrides : List Int → List Int
  | [] => []
  | [_] => [1]
  | _ :: b :: bs => (computeStrides (b :: bs)).headD 1 * b :: computeStrides (b :: bs)

/-- tensor_empty (tensor.c:173-191): size = product of the shape entries
(the C loop `size *= shape[i]` starting from 1), fresh storage of that
size, offset 0, shape copied, row-major strides, no cached repr. -/
def tensor_empty (st : State) (shape : List Int) (uninit : ℚ) : State × Tensor :=
  let size := shape.foldl (· * ·) 1
  let p := st.allocStorage (storage_new size uninit)
  (p.1,
   { storage := p.2, offset := 0, ndim := shape.length, shape := shape,
     strides := computeStrides shape, repr := none })

/-- The fill loop of tensor_arange (tensor.c:196-200): `val` starts at
`start` and is bumped by `step` after every store, over the whole buffer. -/
def arangeFill (val step : ℚ) : Nat → List ℚ
  | 0 => []
  | n + 1 => val :: arangeFill (val + step) step n

/-- The constructor fill loops write `storage` positions `0..data_size-1`
through storage_setitem; in the model that replaces the cell's buffer by a
list of the same length. -/
def fillStorage (st : State) (id : Nat) (f : Nat → List ℚ) : State :=
  match st.getStorage id with
  | some s => st.setStorage id (some { s with data := f s.data.length })
  | none => st

/-- tensor_arange (tensor.c:194-202). -/
def tensor_arange (st : State) (start step : ℚ) (shape : List Int) (uninit : ℚ) :
    State × Tensor :=
  let p := tensor_empty st shape uninit
  (fillStorage p.1 p.2.storage (fun n => arangeFill start step n), p.2)

/-- tensor_ones (tensor.c:204-210). -/
def tensor_ones (st : State) (shape : List Int) (uninit : ℚ) : State × Tensor :=
  let p := tensor_empty st shape uninit
  (fillStorage p.1 p.2.storage (fun n => List.replicate n 1), p.2)

/-- tensor_zeros (tensor.c:212-218). -/
def tensor_zeros (st : State) (shape : List Int) (uninit : ℚ) : State × Tensor :=
  let p := tensor_empty st shape uninit
  (fillStorage p.1 p.2.storage (fun n => List.replicate n 0), p.2)

/-- tensor_reshape (tensor.c:220-250): size = product of the requested
shape; fatal `Err.reshapeSize` when it differs from the storage's
`data_size`; on success a new view over the same storage (incref'd), same
offset, fresh copies of shape and row-major strides, no cached repr, and
no data copy. -/
def tensor_reshape (st : State) (t : Tensor) (shape : List Int) :
    Except Err (State × Tensor) :=
  let size := shape.foldl (· * ·) 1
  match st.getStorage t.storage with
  | none => .error .danglingStorage
  | some s =>
      if size ≠ s.data_size then .error (.reshapeSize s.data_size shape)
      else
        .ok (storage_incref st t.storage,
          { storage := t.storage, offset := t.offset, ndim := shape.length,
            shape := shape, strides := computeStrides shape, repr := none })

/-- Two-decimal rendering of a nonnegative count of hundredths. -/
def formatCents (c : Int) : String :=
  let n := c.toNat
  toString (n / 100) ++ "." ++ (if n % 100 < 10 then "0" else "") ++ toString (n % 100)

/-- sprintf("%.2f", value) (tensor.c:36) on the exactly representable
values the library manipulates: round to hundredths and print with exactly
two decimal digits. -/
def formatFloat2 (q : ℚ) : String :=
  if q < 0 then "-" ++ formatCents (round (-q * 100)) else formatCents (round (q * 100))

/-- fill_string (tensor.c:32-47).  The first argument is fuel equal to
`t.ndim - dim`, which makes the recursion structural (the C recursion
terminates because `dim` grows up to `t->ndim`, where the innermost case
formats one element).  Each level prints `[`, the `shape[dim]` entries of
the dimension separated by `, `, then `]`; the shared scratch index array
is threaded through, with `indices[dim] = i` before each inner call. -/
def fill_string (st : State) (t : Tensor) : Nat → Nat → List Int → Except Err (String × List Int)
  | 0, _, indices => do
      let r ← tensor_getitem st t indices
      pure (formatFloat2 r.1, r.2)
  | fuel + 1, dim, indices =>
      let n := (t.shape.getD dim 0).toNat
      let body := (List.range n).foldl
        (fun acc i => do
          let a ← acc
          let r ← fill_string st t fuel (dim + 1) (a.2.set dim (Int.ofNat i))
          pure (a.1 ++ r.1 ++ (if i < n - 1 then ", " else ""), r.2))
        (.ok ("", indices))
      do
        let a ← body
        pure ("[" ++ a.1 ++ "]", a.2)

/-- The buffer-size loop of tensor_to_string (tensor.c:138-146), one term
per dimension: 5 characters per element, 2 per separator within the
dimension, and (for every dimension but the last) 2 per bracket pair and 2
more for separators between subarrays.  The estimate is NOT multiplied
across dimensions. -/
def max_len_loop : List Int → Int
  | [] => 0
  | [a] => a * 5 + (a - 1) * 2
  | a :: b :: bs => (a * 5 + (a - 1) * 2 + a * 2 + 2) + max_len_loop (b :: bs)

/-- The full `max_len` value of tensor_to_string (tensor.c:138-147): the
loop terms plus 2 for the outer brackets and 1 for the null terminator.
This is the number of bytes the C code mallocs for the string. -/
def max_len (shape : List Int) : Int := 2 + max_len_loop shape + 1

/-- tensor_to_string (tensor.c:133-165): return the cached buffer if there
is one; otherwise format the tensor into a buffer of `max_len` bytes,
cache the pointer in `t->repr` and return it.  The C sprintf calls write
the text and a final null terminator into that buffer with no bounds
check; whenever the text plus terminator exceeds `max_len` the writes run
past the allocation — heap-overflow undefined behaviour, modelled as
`Err.bufferOverflow` (the model tests the completed string's length, which
is equivalent: the C overflow happens during the fill exactly when the
total written exceeds the buffer).  mallocCheck's abort-on-failure is not
reached in the model. -/
def tensor_to_string (st : State) (t : Tensor) : Except Err (State × Tensor × Nat) :=
  match t.repr with
  | some id => .ok (st, t, id)
  | none => do
      let r ← fill_string st t t.ndim 0 (List.replicate t.ndim 0)
      if (r.1.length : Int) + 1 > max_len t.shape then .error .bufferOverflow
      else
        let id := st.strs.length
        .ok ({ st with strs := st.strs ++ [some r.1] }, { t with repr := some id }, id)

/-- tensor_print (tensor.c:167-171): obtain the string, print it, then
`free(str)` — which deallocates the buffer while `t->repr` keeps pointing
at it.  Returns the printed text. -/
def tensor_print (st : State) (t : Tensor) : Except Err (State × Tensor × String) := do
  let r ← tensor_to_string st t
  match r.1.strs.getD r.2.2 none with
  | none => .error .danglingString
  | some s => .ok ({ r.1 with strs := r.1.strs.set r.2.2 none }, r.2.1, s)

/-- Observer used to state the concrete formatting claims: the text of the
buffer a `tensor_to_string` call returns, read back from the string heap. -/
def reprStringOf (st : State) (t : Tensor) : Option String :=
  match tensor_to_string st t with
  | .ok (st', _, id) => st'.strs.getD id none
  | .error _ => none

/-- The `%dx%d` rendering of a requested shape in the reshape diagnostic
(tensor.c:228-231). -/
def shapeText : List Int → String
  | [] => ""
  | [a] => toString a
  | a :: b :: bs => toString a ++ "x" ++ shapeText (b :: bs)

/-- The diagnostic text each fatal path prints before terminating
(the fprintf format strings of tensor.c). -/
def Err.render : Err → String
  | .dimMismatch => "IndexError: Number of indices does not match the number of dimensions"
  | .indexOob i b => "IndexError: index " ++ toString i ++ " is out of bounds of " ++ toString b
  | .reshapeSize n shape =>
      "RuntimeError: cannot reshape tensor of size " ++ toString n ++ " into shape " ++ shapeText shape
  | .storageAssert => "Assertion failed: idx >= 0 && idx < s->data_size"
  | .danglingStorage => "undefined behaviour: use of a freed Storage"
  | .danglingString => "undefined behaviour: use of a freed string buffer"
  | .bufferOverflow => "undefined behaviour: string buffer overflow in tensor_to_string"

/-- The row-major stride law, exactly as the spec states it. -/
def strideLaw (strides shape : List Int) : Prop :=
  strides.getD (shape.length - 1) 1 = 1 ∧
  ∀ i : Nat, i + 1 < shape.length →
    strides.getD i 1 = strides.getD (i + 1) 1 * shape.getD (i + 1) 1

/-- A logical index tuple is valid for a shape when the per-axis loop of
tensor_getitem/tensor_setitem accepts it: every entry lies in
`[0, shape[axis])` after the single negative-index adjustment. -/
def validIdx (indices shape : List Int) : Prop := (adjustLoop indices shape).2 = none

instance validIdx.instDecidable (indices shape : List Int) : Decidable (validIdx indices shape) :=
  inferInstanceAs (Decidable ((adjustLoop indices shape).2 = none))

/-- Well-formedness of a view as produced by the constructors: matching
field lengths, dense row-major strides, offset 0, positive extents, and a
live storage whose capacity is the shape's element count. -/
def WF (st : State) (t : Tensor) : Prop :=
  t.ndim = t.shape.length ∧ t.strides = computeStrides t.shape ∧ t.offset = 0 ∧
  (∀ a ∈ t.shape, 0 < a) ∧
  ∃ s, st.getStorage t.storage = some s ∧ (s.data.length : Int) = t.shape.prod

/-! Concrete fixture values used by the concrete theorems below (results of
evaluating the constructors on the small inputs of the spec's scenarios). -/

/-- The heap and tensor produced by tensor_ones on shape [1]. -/
def ones1 : State × Tensor := tensor_ones State.empty [1] 0

/-- The heap after tensor_to_string has cached "[1.00]" for the [1]-ones
tensor. -/
def ones1Str : State :=
  { storages := [some { data := [1], ref_count := 1 }], strs := [some "[1.00]"] }

/-- The same heap after tensor_print has freed the cached buffer. -/
def ones1Freed : State :=
  { storages := [some { data := [1], ref_count := 1 }], strs := [none] }

/-- The [1]-ones tensor with the repr pointer cached. -/
def ones1T : Tensor :=
  { storage := 0, offset := 0, ndim := 1, shape := [1], strides := [1], repr := some 0 }

/-- A heap holding one live storage and one cached string. -/
def cachedSt : State :=
  { storages := [some { data := [0], ref_count := 1 }], strs := [some "cached"] }

/-- A tensor over cachedSt whose repr pointer is already set. -/
def cachedT : Tensor :=
  { storage := 0, offset := 0, ndim := 1, shape := [1], strides := [1], repr := some 5 }

/-- cachedSt after a set wrote 7 through cachedT. -/
def cachedSt2 : State := cachedSt.setStorage 0 (some { data := [7], ref_count := 1 })

/-- The heap reached from the 3x4 empty tensor by reshape to [2, 6]
followed by set 99 at [1, 2] of the original view. -/
def aliasSt2 : State :=
  { storages := [some { data := (List.replicate 12 (0 : ℚ)).set 6 99, ref_count := 2 }],
    strs := [] }

/-- The [2, 6] view produced by that reshape. -/
def reshaped26 : Tensor :=
  { storage := 0, offset := 0, ndim := 2, shape := [2, 6],
    strides := computeStrides [2, 6], repr := none }


end CTensor

namespace CTensor

theorem getD_some_lt {α : Type} {l : List (Option α)} {i : Nat} {x : α}
    (h : l.getD i none = some x) : i < l.length := by
  by_contra hc
  push_neg at hc
  rw [List.getD_eq_default _ _ hc] at h
  cases h

theorem getD_set_self {α : Type} {l : List (Option α)} {i : Nat} (x : Option α)
    (h : i < l.length) : (l.set i x).getD i none = x := by
  have hl : i < (l.set i x).length := by simpa using h
  rw [List.getD_eq_getElem _ _ hl, List.getElem_set_self]

theorem adjustLoop_fst_length (xs : List Int) : ∀ bs : List Int,
    (adjustLoop xs bs).1.length = xs.length := by
  induction xs with
  | nil => intro bs; cases bs <;> simp [adjustLoop]
  | cons x xs ih =>
    intro bs
    cases bs with
    | nil => simp [adjustLoop]
    | cons b bs =>
      simp only [adjustLoop]
      split
      · simp
      · simp [ih bs]

theorem adjustLoop_ok_fst (xs : List Int) : ∀ bs : List Int, xs.length ≤ bs.length →
    (adjustLoop xs bs).2 = none → (adjustLoop xs bs).1 = List.zipWith adjust xs bs := by
  induction xs with
  | nil => intro bs _ _; cases bs <;> simp [adjustLoop]
  | cons x xs ih =>
    intro bs hlen hok
    cases bs with
    | nil => simp at hlen
    | cons b bs =>
      simp only [adjustLoop] at hok ⊢
      split at hok
      · simp at hok
      · rename_i hnot
        simp only [List.zipWith]
        rw [if_neg hnot]
        rw [ih bs (by simpa using hlen) hok]

theorem adjustLoop_ok_forall (xs : List Int) : ∀ bs : List Int, xs.length = bs.length →
    (adjustLoop xs bs).2 = none →
    List.Forall₂ (fun i b => 0 ≤ i ∧ i < b) (adjustLoop xs bs).1 bs := by
  induction xs with
  | nil =>
    intro bs hlen _
    cases bs with
    | nil => simp [adjustLoop]
    | cons b bs => simp at hlen
  | cons x xs ih =>
    intro bs hlen hok
    cases bs with
    | nil => simp at hlen
    | cons b bs =>
      simp only [adjustLoop] at hok ⊢
      split at hok
      · simp at hok
      · rename_i hnot
        rw [if_neg hnot]
        push_neg at hnot
        exact List.Forall₂.cons (by omega) (ih bs (by simpa using hlen) hok)

theorem adjustLoop_of_inRange (xs : List Int) : ∀ bs : List Int,
    List.Forall₂ (fun i b => 0 ≤ i ∧ i < b) xs bs → adjustLoop xs bs = (xs, none) := by
  induction xs with
  | nil =>
    intro bs hf
    cases hf
    rfl
  | cons x xs ih =>
    intro bs hf
    cases hf with
    | cons hxb hrest =>
      rename_i b bs
      have hadj : adjust x b = x := by
        unfold adjust
        rw [if_neg (by omega)]
      simp only [adjustLoop, hadj]
      rw [if_neg (by omega), ih bs hrest]

theorem zipWith_adjust_of_nonneg (xs : List Int) : ∀ bs : List Int,
    (∀ e ∈ xs, 0 ≤ e) → List.zipWith adjust xs bs = xs.take bs.length := by
  induction xs with
  | nil => intro bs _; simp
  | cons x xs ih =>
    intro bs hnn
    cases bs with
    | nil => simp
    | cons b bs =>
      have hx : adjust x b = x := by
        unfold adjust
        rw [if_neg (by have := hnn x (by simp); omega)]
      simp only [List.zipWith, hx, List.length_cons, List.take_succ_cons]
      rw [ih bs (fun e he => hnn e (by simp [he]))]

theorem adjustLoop_error_at (xs : List Int) : ∀ (bs : List Int) (j : Nat),
    xs.length = bs.length → j < xs.length →
    (∀ k, k < j → 0 ≤ adjust (xs.getD k 0) (bs.getD k 0) ∧
        adjust (xs.getD k 0) (bs.getD k 0) < bs.getD k 0) →
    (adjust (xs.getD j 0) (bs.getD j 0) < 0 ∨ bs.getD j 0 ≤ adjust (xs.getD j 0) (bs.getD j 0)) →
    (adjustLoop xs bs).2 = some (.indexOob (adjust (xs.getD j 0) (bs.getD j 0)) (bs.getD j 0)) := by
  induction xs with
  | nil => intro bs j _ hj _ _; simp at hj
  | cons x xs ih =>
    intro bs j hlen hj hgood hbad
    cases bs with
    | nil => simp at hlen
    | cons b bs =>
      cases j with
      | zero =>
        simp only [List.getD_cons_zero] at hbad ⊢
        simp only [adjustLoop]
        rw [if_pos hbad]
      | succ j =>
        have h0 := hgood 0 (by omega)
        simp only [List.getD_cons_zero] at h0
        simp only [List.getD_cons_succ] at hbad ⊢
        simp only [adjustLoop]
        rw [if_neg (by omega)]
        exact ih bs j (by simpa using hlen) (by simpa using hj)
          (fun k hk => by simpa using hgood (k + 1) (by omega)) hbad

theorem computeStrides_cons (s : List Int) : ∀ a : Int,
    computeStrides (a :: s) = s.prod :: computeStrides s := by
  induction s with
  | nil => intro a; simp [computeStrides]
  | cons b bs ih =>
    intro a
    rw [computeStrides, ih b]
    simp [mul_comm]

theorem computeStrides_length (s : List Int) : (computeStrides s).length = s.length := by
  induction s with
  | nil => rfl
  | cons a s ih => rw [computeStrides_cons]; simp [ih]

theorem computeStrides_getD (s : List Int) : ∀ i : Nat, i < s.length →
    (computeStrides s).getD i 1 = (s.drop (i + 1)).prod := by
  induction s with
  | nil => intro i h; simp at h
  | cons a s ih =>
    intro i h
    rw [computeStrides_cons]
    cases i with
    | zero => simp
    | succ j =>
      simp only [List.getD_cons_succ, List.drop_succ_cons]
      exact ih j (by simpa using h)

theorem strideLaw_computeStrides (s : List Int) (hs : s ≠ []) :
    strideLaw (computeStrides s) s := by
  constructor
  · have h : s.length - 1 < s.length := by
      cases s
      · exact absurd rfl hs
      · simp
    rw [computeStrides_getD s _ h]
    have hdr : s.drop (s.length - 1 + 1) = [] := List.drop_eq_nil_of_le (by omega)
    rw [hdr, List.prod_nil]
  · intro i hi
    rw [computeStrides_getD s i (by omega), computeStrides_getD s (i + 1) (by omega)]
    have hdrop : s.drop (i + 1) = s.getD (i + 1) 1 :: s.drop (i + 2) := by
      rw [List.getD_eq_getElem s 1 (by omega : i + 1 < s.length)]
      exact List.drop_eq_getElem_cons (by omega)
    rw [hdrop, List.prod_cons]
    ring

theorem sumProd_bound (s : List Int) (xs : List Int) (hpos : ∀ a ∈ s, 0 < a)
    (hf : List.Forall₂ (fun i b => 0 ≤ i ∧ i < b) xs s) :
    0 ≤ sumProd xs (computeStrides s) ∧ sumProd xs (computeStrides s) < s.prod := by
  revert hpos
  induction hf with
  | nil => intro _; simp [sumProd, computeStrides]
  | cons hxb hrest ih =>
    rename_i x b xs' bs'
    intro hpos
    rw [computeStrides_cons]
    simp only [sumProd, List.prod_cons]
    have hpos' : ∀ a ∈ bs', 0 < a := fun a ha => hpos a (by simp [ha])
    have hb : 0 < b := hpos b (by simp)
    have hP : 0 < bs'.prod := List.prod_pos hpos'
    have ihh := ih hpos'
    constructor
    · have h1 : 0 ≤ x * bs'.prod := mul_nonneg hxb.1 (le_of_lt hP)
      omega
    · have h2 : x * bs'.prod ≤ (b - 1) * bs'.prod :=
        mul_le_mul_of_nonneg_right (by omega) (le_of_lt hP)
      nlinarith [ihh.2]

theorem forall₂_nonneg {xs bs : List Int}
    (hf : List.Forall₂ (fun i b => 0 ≤ i ∧ i < b) xs bs) : ∀ e ∈ xs, 0 ≤ e := by
  induction hf with
  | nil => intro e he; simp at he
  | cons hxb _ ih =>
    intro e he
    rcases List.mem_cons.1 he with h | h
    · exact h ▸ hxb.1
    · exact ih e h

theorem tensor_getitem_ok_elim {st : State} {t : Tensor} {indices idx : List Int} {v : ℚ}
    (h : tensor_getitem st t indices = .ok (v, idx)) :
    indices.length = t.ndim ∧ adjustLoop indices t.shape = (idx, none) ∧
    ∃ s, st.getStorage t.storage = some s ∧
      storage_getitem s (logical_to_physical t idx) = .ok v := by
  unfold tensor_getitem at h
  split at h
  · cases h
  · rename_i hlen
    split at h
    · cases h
    · rename_i idx0 hadj
      split at h
      · cases h
      · rename_i s hs
        split at h
        · cases h
        · rename_i v0 hv
          injection h with h1
          injection h1 with h2 h3
          subst h2
          subst h3
          exact ⟨by omega, hadj, s, hs, hv⟩

theorem tensor_getitem_ok_intro {st : State} {t : Tensor} {indices idx : List Int}
    {s : Storage} {v : ℚ}
    (hlen : indices.length = t.ndim)
    (hadj : adjustLoop indices t.shape = (idx, none))
    (hs : st.getStorage t.storage = some s)
    (hget : storage_getitem s (logical_to_physical t idx) = .ok v) :
    tensor_getitem st t indices = .ok (v, idx) := by
  unfold tensor_getitem
  rw [if_neg (by omega), hadj, hs]
  simp [hget]

theorem tensor_setitem_ok_elim {st : State} {t : Tensor} {indices idx : List Int}
    {v : ℚ} {st' : State}
    (h : tensor_setitem st t indices v = .ok (st', idx)) :
    indices.length = t.ndim ∧ adjustLoop indices t.shape = (idx, none) ∧
    ∃ s s', st.getStorage t.storage = some s ∧
      storage_setitem s (logical_to_physical t idx) v = .ok s' ∧
      st' = st.setStorage t.storage (some s') := by
  unfold tensor_setitem at h
  split at h
  · cases h
  · rename_i hlen
    split at h
    · cases h
    · rename_i idx0 hadj
      split at h
      · cases h
      · rename_i s hs
        split at h
        · cases h
        · rename_i s0 hv
          injection h with h1
          injection h1 with h2 h3
          subst h2
          subst h3
          exact ⟨by omega, hadj, s, s0, hs, hv, rfl⟩

theorem tensor_setitem_ok_intro {st : State} {t : Tensor} {indices idx : List Int}
    {s s' : Storage} {v : ℚ}
    (hlen : indices.length = t.ndim)
    (hadj : adjustLoop indices t.shape = (idx, none))
    (hs : st.getStorage t.storage = some s)
    (hset : storage_setitem s (logical_to_physical t idx) v = .ok s') :
    tensor_setitem st t indices v = .ok (st.setStorage t.storage (some s'), idx) := by
  unfold tensor_setitem
  rw [if_neg (by omega), hadj, hs]
  simp [hset]

theorem getD_append_self {α : Type} (l : List (Option α)) (x : Option α) :
    (l ++ [x]).getD l.length none = x := by
  rw [List.getD_eq_getElem _ _ (by simp)]
  simp

/-- Every fresh construction with a non-empty shape of positive extents
yields a well-formed view (positivity of the extents is all that is
needed), so the round-trip theorem's hypothesis is the normal state of
affairs for constructor-produced tensors. -/
theorem tensor_empty_WF (st : State) (shape : List Int) (u : ℚ)
    (hpos : ∀ a ∈ shape, 0 < a) :
    WF (tensor_empty st shape u).1 (tensor_empty st shape u).2 := by
  refine ⟨rfl, rfl, rfl, hpos, storage_new (shape.foldl (· * ·) 1) u, ?_, ?_⟩
  · exact getD_append_self st.storages _
  · have hfold : shape.foldl (· * ·) 1 = shape.prod := List.prod_eq_foldl.symm
    have hprodpos : 0 < shape.prod := List.prod_pos hpos
    simp only [storage_new, List.length_replicate, tensor_empty]
    rw [hfold]
    omega

theorem getD_set_self' {α : Type} {l : List α} {i : Nat} (x d : α)
    (h : i < l.length) : (l.set i x).getD i d = x := by
  have hl : i < (l.set i x).length := by simpa using h
  rw [List.getD_eq_getElem _ _ hl, List.getElem_set_self]

/-- C9: get and set with a supplied index count different from the tensor's
rank fail fatally with the dimension-mismatch diagnostic, before any element
is read or written (the error return carries no updated heap, and the check
precedes every storage access in the definition). -/
theorem getset_dim_mismatch (st : State) (t : Tensor) (indices : List Int) (v : ℚ)
    (h : indices.length ≠ t.ndim) :
    tensor_getitem st t indices = .error .dimMismatch ∧
    tensor_setitem st t indices v = .error .dimMismatch := by
  unfold tensor_getitem tensor_setitem
  rw [if_pos h, if_pos h]
  exact ⟨rfl, rfl⟩

/-- Witness for C9 on a rank-2 tensor handed a single index. -/
theorem getset_dim_mismatch_witness :
    tensor_getitem (tensor_empty State.empty [2, 2] 0).1 (tensor_empty State.empty [2, 2] 0).2 [0]
      = .error .dimMismatch ∧
    tensor_setitem (tensor_empty State.empty [2, 2] 0).1 (tensor_empty State.empty [2, 2] 0).2 [0] 5
      = .error .dimMismatch :=
  getset_dim_mismatch (tensor_empty State.empty [2, 2] 0).1 (tensor_empty State.empty [2, 2] 0).2
    [0] 5 (by decide)

/-- C2: every tensor produced by empty, arange, ones, zeros or reshape with a
non-empty shape satisfies the row-major stride law
(strides[ndim-1] = 1 and strides[i] = strides[i+1] * shape[i+1]). -/
theorem constructors_stride_law :
    (∀ (st : State) (shape : List Int) (u : ℚ), shape ≠ [] →
      strideLaw (tensor_empty st shape u).2.strides (tensor_empty st shape u).2.shape)
    ∧ (∀ (st : State) (a b : ℚ) (shape : List Int) (u : ℚ), shape ≠ [] →
      strideLaw (tensor_arange st a b shape u).2.strides (tensor_arange st a b shape u).2.shape)
    ∧ (∀ (st : State) (shape : List Int) (u : ℚ), shape ≠ [] →
      strideLaw (tensor_ones st shape u).2.strides (tensor_ones st shape u).2.shape)
    ∧ (∀ (st : State) (shape : List Int) (u : ℚ), shape ≠ [] →
      strideLaw (tensor_zeros st shape u).2.strides (tensor_zeros st shape u).2.shape)
    ∧ (∀ (st st' : State) (t t' : Tensor) (shape : List Int),
      tensor_reshape st t shape = .ok (st', t') → shape ≠ [] →
      strideLaw t'.strides t'.shape) := by
  refine ⟨?_, ?_, ?_, ?_, ?_⟩
  · intro st shape u h
    exact strideLaw_computeStrides shape h
  · intro st a b shape u h
    exact strideLaw_computeStrides shape h
  · intro st shape u h
    exact strideLaw_computeStrides shape h
  · intro st shape u h
    exact strideLaw_computeStrides shape h
  · intro st st' t t' shape hr hne
    unfold tensor_reshape at hr
    split at hr
    · cases hr
    · rename_i s hs
      dsimp only at hr
      split at hr
      · cases hr
      · injection hr with h1
        injection h1 with h2 h3
        subst h3
        exact strideLaw_computeStrides shape hne

/-- Witness for C2: the 3x4 empty tensor, and the tensor reshaped to 2x6. -/
theorem constructors_stride_law_witness :
    strideLaw (tensor_empty State.empty [3, 4] 0).2.strides
      (tensor_empty State.empty [3, 4] 0).2.shape ∧
    strideLaw (computeStrides [2, 6]) [2, 6] :=
  ⟨constructors_stride_law.1 State.empty [3, 4] 0 (by decide),
   constructors_stride_law.2.2.2.2 (tensor_empty State.empty [3, 4] 0).1
     (storage_incref (tensor_empty State.empty [3, 4] 0).1 0)
     (tensor_empty State.empty [3, 4] 0).2
     { storage := 0, offset := 0, ndim := 2, shape := [2, 6],
       strides := computeStrides [2, 6], repr := none }
     [2, 6] (by decide) (by decide)⟩

/-- C4: reshape compares the product of the requested shape against the
storage's data_size.  On mismatch it fails fatally with a diagnostic
carrying the mismatched size and the requested shape; on a match it returns
a new view over the same (incref'd) storage with exactly the requested
shape — never a truncated or padded tensor.  (The success case is stated
for non-empty shapes: with ndim = 0 the C stride loop writes strides[-1],
which is undefined behaviour.) -/
theorem reshape_size_check (st : State) (t : Tensor) (shape : List Int) (s : Storage)
    (hs : st.getStorage t.storage = some s) :
    (shape.foldl (· * ·) 1 ≠ s.data_size →
      tensor_reshape st t shape = .error (.reshapeSize s.data_size shape))
    ∧ (shape.foldl (· * ·) 1 = s.data_size → shape ≠ [] →
      tensor_reshape st t shape = .ok (storage_incref st t.storage,
        { storage := t.storage, offset := t.offset, ndim := shape.length,
          shape := shape, strides := computeStrides shape, repr := none })) := by
  constructor
  · intro hne
    simp only [tensor_reshape, hs]
    rw [if_pos hne]
  · intro he _
    simp only [tensor_reshape, hs]
    rw [if_neg (by omega)]

/-- Witness for C4: the 3x4 tensor (12 elements) rejects shape 5x5 with the
diagnostic data 12 and [5, 5], and accepts shape 2x6. -/
theorem reshape_size_check_witness :
    tensor_reshape (tensor_empty State.empty [3, 4] 0).1 (tensor_empty State.empty [3, 4] 0).2
      [5, 5] = .error (.reshapeSize (storage_new 12 0).data_size [5, 5]) ∧
    tensor_reshape (tensor_empty State.empty [3, 4] 0).1 (tensor_empty State.empty [3, 4] 0).2
      [2, 6] = .ok (storage_incref (tensor_empty State.empty [3, 4] 0).1
          (tensor_empty State.empty [3, 4] 0).2.storage,
        { storage := (tensor_empty State.empty [3, 4] 0).2.storage,
          offset := (tensor_empty State.empty [3, 4] 0).2.offset,
          ndim := ([2, 6] : List Int).length, shape := [2, 6],
          strides := computeStrides [2, 6], repr := none }) :=
  ⟨(reshape_size_check (tensor_empty State.empty [3, 4] 0).1 (tensor_empty State.empty [3, 4] 0).2
      [5, 5] (storage_new 12 0) (by decide)).1 (by decide),
   (reshape_size_check (tensor_empty State.empty [3, 4] 0).1 (tensor_empty State.empty [3, 4] 0).2
      [2, 6] (storage_new 12 0) (by decide)).2 (by decide) (by decide)⟩

/-- C8 (amended): tensor_free decrements the storage's reference count by
one, deallocating the buffer exactly when the count reaches zero, and
releases the shape array, strides array and the Tensor struct (value
semantics here) — but it does NOT release a cached string representation:
the string heap is left completely unchanged. -/
theorem tensor_free_storage_only (st : State) (t : Tensor) (s : Storage)
    (hs : st.getStorage t.storage = some s) :
    (tensor_free st t).strs = st.strs ∧
    (s.ref_count = 1 → (tensor_free st t).getStorage t.storage = none) ∧
    (s.ref_count ≠ 1 → (tensor_free st t).getStorage t.storage =
      some { s with ref_count := s.ref_count - 1 }) := by
  have hlt : t.storage < st.storages.length := getD_some_lt hs
  refine ⟨?_, ?_, ?_⟩
  · simp only [tensor_free, storage_decref, hs]
    split <;> rfl
  · intro h1
    simp only [tensor_free, storage_decref, hs]
    rw [if_pos (by omega)]
    exact getD_set_self _ hlt
  · intro h1
    simp only [tensor_free, storage_decref, hs]
    rw [if_neg (by omega)]
    exact getD_set_self _ hlt

/-- Witness for C8's amended theorem: freeing a fresh 2x2 tensor (single
reference) empties its storage cell and leaves the string heap alone. -/
theorem tensor_free_storage_only_witness :
    (tensor_free (tensor_empty State.empty [2, 2] 0).1 (tensor_empty State.empty [2, 2] 0).2).strs
      = (tensor_empty State.empty [2, 2] 0).1.strs ∧
    (tensor_free (tensor_empty State.empty [2, 2] 0).1
        (tensor_empty State.empty [2, 2] 0).2).getStorage
        (tensor_empty State.empty [2, 2] 0).2.storage = none :=
  ⟨(tensor_free_storage_only (tensor_empty State.empty [2, 2] 0).1
      (tensor_empty State.empty [2, 2] 0).2 (storage_new 4 0) (by decide)).1,
   (tensor_free_storage_only (tensor_empty State.empty [2, 2] 0).1
      (tensor_empty State.empty [2, 2] 0).2 (storage_new 4 0) (by decide)).2.1 (by decide)⟩

/-- C10: on every successful get or set the caller's index array comes back
mutated in place: each negative entry has had shape[axis] added (the array
equals the axis-wise adjustment of the input), every entry is then
non-negative, and an all-non-negative input array comes back unchanged. -/
theorem index_adjust_in_place (st : State) (t : Tensor) (indices : List Int) (v : ℚ)
    (hsh : t.shape.length = t.ndim) :
    (∀ r idx, tensor_getitem st t indices = .ok (r, idx) →
      idx = List.zipWith adjust indices t.shape ∧ (∀ e ∈ idx, 0 ≤ e) ∧
      ((∀ e ∈ indices, 0 ≤ e) → idx = indices))
    ∧ (∀ st' idx, tensor_setitem st t indices v = .ok (st', idx) →
      idx = List.zipWith adjust indices t.shape ∧ (∀ e ∈ idx, 0 ≤ e) ∧
      ((∀ e ∈ indices, 0 ≤ e) → idx = indices)) := by
  have main : ∀ idx, indices.length = t.ndim → adjustLoop indices t.shape = (idx, none) →
      idx = List.zipWith adjust indices t.shape ∧ (∀ e ∈ idx, 0 ≤ e) ∧
      ((∀ e ∈ indices, 0 ≤ e) → idx = indices) := by
    intro idx hlen hadj
    have hlen2 : indices.length = t.shape.length := by omega
    have h1 : idx = List.zipWith adjust indices t.shape := by
      have h := adjustLoop_ok_fst indices t.shape (by omega) (by rw [hadj])
      rw [hadj] at h
      exact h
    have hforall := adjustLoop_ok_forall indices t.shape hlen2 (by rw [hadj])
    rw [hadj] at hforall
    refine ⟨h1, forall₂_nonneg hforall, ?_⟩
    intro hnn
    rw [h1, zipWith_adjust_of_nonneg indices t.shape hnn,
      List.take_of_length_le (by omega)]
  constructor
  · intro r idx h
    obtain ⟨hlen, hadj, _⟩ := tensor_getitem_ok_elim h
    exact main idx hlen hadj
  · intro st' idx h
    obtain ⟨hlen, hadj, _⟩ := tensor_setitem_ok_elim h
    exact main idx hlen hadj

/-- Witness for C10: getting index [-1, 2] from a 2x3 tensor succeeds and
hands back the array rewritten to [1, 2]. -/
theorem index_adjust_in_place_witness :
    [(1 : Int), 2] = List.zipWith adjust [-1, 2] (tensor_empty State.empty [2, 3] 0).2.shape ∧
    (∀ e ∈ [(1 : Int), 2], 0 ≤ e) ∧
    ((∀ e ∈ [(-1 : Int), 2], 0 ≤ e) → [(1 : Int), 2] = [-1, 2]) :=
  (index_adjust_in_place (tensor_empty State.empty [2, 3] 0).1
      (tensor_empty State.empty [2, 3] 0).2 [-1, 2] 5 (by decide)).1 0 [1, 2] (by decide)

/-- C5: get and set adjust a negative index exactly once by adding
shape[axis] — on a 1-D tensor of extent N both get and set treat index -1
exactly like N-1 — and an index that is still negative or at least
shape[axis] after that single adjustment fails fatally with the diagnostic
carrying that (adjusted) offending index and the axis extent. -/
theorem negative_index_once :
    (∀ (st : State) (t : Tensor) (N : Int), t.shape = [N] → t.ndim = 1 → 0 < N →
      tensor_getitem st t [-1] = tensor_getitem st t [N - 1] ∧
      ∀ v : ℚ, tensor_setitem st t [-1] v = tensor_setitem st t [N - 1] v)
    ∧ (∀ (st : State) (t : Tensor) (indices : List Int) (j : Nat),
      indices.length = t.ndim → j < indices.length →
      (∀ k, k < j → 0 ≤ adjust (indices.getD k 0) (t.shape.getD k 0) ∧
          adjust (indices.getD k 0) (t.shape.getD k 0) < t.shape.getD k 0) →
      (adjust (indices.getD j 0) (t.shape.getD j 0) < 0 ∨
          t.shape.getD j 0 ≤ adjust (indices.getD j 0) (t.shape.getD j 0)) →
      t.shape.length = t.ndim →
      tensor_getitem st t indices = .error
        (.indexOob (adjust (indices.getD j 0) (t.shape.getD j 0)) (t.shape.getD j 0)) ∧
      ∀ v : ℚ, tensor_setitem st t indices v = .error
        (.indexOob (adjust (indices.getD j 0) (t.shape.getD j 0)) (t.shape.getD j 0))) := by
  constructor
  · intro st t N hsh hnd hN
    have e1 : adjustLoop [-1] [N] = ([N - 1], none) := by
      simp only [adjustLoop, adjust]
      rw [if_pos (by omega : (-1 : Int) < 0)]
      rw [if_neg (by omega : ¬((-1 : Int) + N < 0 ∨ N ≤ (-1) + N))]
      have h : (-1 : Int) + N = N - 1 := by ring
      rw [h]
    have e2 : adjustLoop [N - 1] [N] = ([N - 1], none) := by
      simp only [adjustLoop, adjust]
      rw [if_neg (by omega : ¬(N - (1 : Int) < 0))]
      rw [if_neg (by omega : ¬(N - (1 : Int) < 0 ∨ N ≤ N - 1))]
    constructor
    · unfold tensor_getitem
      rw [hsh, e1, e2]
      simp [hnd]
    · intro v
      unfold tensor_setitem
      rw [hsh, e1, e2]
      simp [hnd]
  · intro st t indices j hlen hj hgood hbad hshlen
    have herr := adjustLoop_error_at indices t.shape j (by omega) hj hgood hbad
    have hpair : adjustLoop indices t.shape =
        ((adjustLoop indices t.shape).1,
          some (.indexOob (adjust (indices.getD j 0) (t.shape.getD j 0)) (t.shape.getD j 0))) := by
      rw [← herr]
    constructor
    · unfold tensor_getitem
      rw [if_neg (by omega), hpair]
    · intro v
      unfold tensor_setitem
      rw [if_neg (by omega), hpair]

/-- Witness for C5 on a 1-D tensor of extent 3: get(t, [-1]) = get(t, [2]),
and get(t, [5]) fails naming index 5 and bound 3. -/
theorem negative_index_once_witness :
    (tensor_getitem (tensor_empty State.empty [3] 0).1 (tensor_empty State.empty [3] 0).2 [-1]
      = tensor_getitem (tensor_empty State.empty [3] 0).1 (tensor_empty State.empty [3] 0).2 [2]) ∧
    tensor_getitem (tensor_empty State.empty [3] 0).1 (tensor_empty State.empty [3] 0).2 [5]
      = .error (.indexOob 5 3) :=
  ⟨by
    have h := (negative_index_once.1 (tensor_empty State.empty [3] 0).1
      (tensor_empty State.empty [3] 0).2 3 (by decide) (by decide) (by decide)).1
    simpa using h,
   by
    have h := (negative_index_once.2 (tensor_empty State.empty [3] 0).1
      (tensor_empty State.empty [3] 0).2 [5] 0 (by decide) (by decide)
      (by intro k hk; omega) (by decide) (by decide)).1
    simpa [adjust] using h⟩

/-- C1: on any well-formed tensor, for every index tuple accepted by the
validation loop (length equal to the rank, every entry within bounds after
the single negative-index adjustment) and any value v, set followed by get
at the same (in-place adjusted) index array succeeds and returns v. -/
theorem set_then_get_roundtrip (st : State) (t : Tensor) (indices : List Int) (v : ℚ)
    (hwf : WF st t) (hlen : indices.length = t.ndim) (hvalid : validIdx indices t.shape) :
    ∃ st' idx, tensor_setitem st t indices v = .ok (st', idx) ∧
      tensor_getitem st' t idx = .ok (v, idx) := by
  obtain ⟨hnd, hstr, hoff, hpos, s, hs, hcap⟩ := hwf
  have hv2 : (adjustLoop indices t.shape).2 = none := hvalid
  have hlen2 : indices.length = t.shape.length := by omega
  obtain ⟨idx, e⟩ : ∃ idx, adjustLoop indices t.shape = (idx, none) :=
    ⟨(adjustLoop indices t.shape).1, by
      conv_lhs => rw [show adjustLoop indices t.shape =
        ((adjustLoop indices t.shape).1, (adjustLoop indices t.shape).2) from rfl]
      rw [hv2]⟩
  have hforall : List.Forall₂ (fun i b => 0 ≤ i ∧ i < b) idx t.shape := by
    have h := adjustLoop_ok_forall indices t.shape hlen2 hv2
    rw [e] at h
    exact h
  have hbound := sumProd_bound t.shape idx hpos hforall
  have hp : logical_to_physical t idx = sumProd idx (computeStrides t.shape) := by
    unfold logical_to_physical
    rw [hoff, hstr]
    omega
  have hinb : 0 ≤ logical_to_physical t idx ∧ logical_to_physical t idx < s.data_size := by
    unfold Storage.data_size
    rw [hp, hcap]
    exact hbound
  have hptn : (logical_to_physical t idx).toNat < s.data.length := by
    have h2 := hinb.2
    have h1 := hinb.1
    unfold Storage.data_size at h2
    omega
  obtain ⟨s', hs'data, hs'set⟩ : ∃ s' : Storage,
      s'.data = s.data.set (logical_to_physical t idx).toNat v ∧
      storage_setitem s (logical_to_physical t idx) v = .ok s' := by
    refine ⟨{ s with data := s.data.set (logical_to_physical t idx).toNat v }, rfl, ?_⟩
    unfold storage_setitem
    rw [if_pos hinb]
  have hds : s'.data_size = s.data_size := by
    unfold Storage.data_size
    rw [hs'data]
    simp
  have hlt : t.storage < st.storages.length := getD_some_lt hs
  have hs2 : (st.setStorage t.storage (some s')).getStorage t.storage = some s' :=
    getD_set_self _ hlt
  have hadj2 : adjustLoop idx t.shape = (idx, none) :=
    adjustLoop_of_inRange _ t.shape hforall
  have hlen3 : idx.length = t.ndim := by
    have h := adjustLoop_fst_length indices t.shape
    rw [e] at h
    simp at h
    omega
  have hget : storage_getitem s' (logical_to_physical t idx) = .ok v := by
    unfold storage_getitem
    rw [if_pos (by rw [hds]; exact hinb), hs'data, getD_set_self' v 0 hptn]
  exact ⟨_, idx, tensor_setitem_ok_intro hlen e hs hs'set,
    tensor_getitem_ok_intro hlen3 hadj2 hs2 hget⟩

/-- Witness for C1: set then get at the valid tuple [1, -1] of a 2x3 tensor
stores and retrieves 7. -/
theorem set_then_get_roundtrip_witness :
    ∃ st' idx, tensor_setitem (tensor_empty State.empty [2, 3] 0).1
        (tensor_empty State.empty [2, 3] 0).2 [1, -1] 7 = .ok (st', idx) ∧
      tensor_getitem st' (tensor_empty State.empty [2, 3] 0).2 idx = .ok (7, idx) :=
  set_then_get_roundtrip (tensor_empty State.empty [2, 3] 0).1
    (tensor_empty State.empty [2, 3] 0).2 [1, -1] 7
    ⟨by decide, by decide, by decide, by decide, storage_new 6 0, by decide, by decide⟩
    (by decide) (by decide)

theorem storage_getitem_eq (c : Storage) (p : Int) (v : ℚ) (l : List ℚ)
    (hd : c.data = l.set p.toNat v) (h0 : 0 ≤ p) (h1 : p < (l.length : Int)) :
    storage_getitem c p = .ok v := by
  unfold storage_getitem Storage.data_size
  rw [hd]
  rw [if_pos (by simp; omega)]
  rw [getD_set_self' v 0 (by omega)]

/-- C3: reshape returns a view over the same storage with its reference
count incremented by exactly one and no data copy; a set through the
original tensor is then observable through the reshaped tensor at any of
its logical indices that translates to the same physical position; and
freeing the original tensor leaves the reshaped tensor's data readable,
because the buffer is deallocated only when the count reaches zero. -/
theorem reshape_aliasing (st : State) (t1 : Tensor) (ns : List Int) (s : Storage)
    (hcell : st.getStorage t1.storage = some s) (hrc : 0 < s.ref_count)
    (st1 : State) (t2 : Tensor) (hresh : tensor_reshape st t1 ns = .ok (st1, t2))
    (idx1 : List Int) (v : ℚ) (st2 : State) (idx1' : List Int)
    (hset : tensor_setitem st1 t1 idx1 v = .ok (st2, idx1'))
    (idx2 idx2' : List Int) (hlen2 : idx2.length = t2.ndim)
    (hadj2 : adjustLoop idx2 t2.shape = (idx2', none))
    (hphys : logical_to_physical t2 idx2' = logical_to_physical t1 idx1') :
    t2.storage = t1.storage ∧
    st1.getStorage t1.storage = some { s with ref_count := s.ref_count + 1 } ∧
    tensor_getitem st2 t2 idx2 = .ok (v, idx2') ∧
    tensor_getitem (tensor_free st2 t1) t2 idx2 = .ok (v, idx2') := by
  simp only [tensor_reshape, hcell] at hresh
  split at hresh
  · cases hresh
  · injection hresh with h1
    injection h1 with hst1 ht2
    subst hst1
    subst ht2
    have hlt : t1.storage < st.storages.length := getD_some_lt hcell
    have hincref : (storage_incref st t1.storage).getStorage t1.storage
        = some { s with ref_count := s.ref_count + 1 } := by
      simp only [storage_incref, hcell]
      exact getD_set_self _ hlt
    obtain ⟨hlen1, hadj1, sA, sA', hsA, hsetA, hst2⟩ := tensor_setitem_ok_elim hset
    have hsAeq : sA = { s with ref_count := s.ref_count + 1 } := by
      have h := hincref.symm.trans hsA
      injection h with h2
      exact h2.symm
    subst hsAeq
    unfold storage_setitem at hsetA
    split at hsetA
    · rename_i hbnd
      injection hsetA with hsA'
      subst hst2
      have hdataA : sA'.data = s.data.set (logical_to_physical t1 idx1').toNat v := by
        rw [← hsA']
      have hrcA : sA'.ref_count = s.ref_count + 1 := by
        rw [← hsA']
      have hbnd' : 0 ≤ logical_to_physical t1 idx1' ∧
          logical_to_physical t1 idx1' < (s.data.length : Int) := hbnd
      have hlt1 : t1.storage < (storage_incref st t1.storage).storages.length :=
        getD_some_lt hincref
      have hcell2 : ((storage_incref st t1.storage).setStorage t1.storage
          (some sA')).getStorage t1.storage = some sA' :=
        getD_set_self _ hlt1
      have hfree : tensor_free ((storage_incref st t1.storage).setStorage t1.storage
            (some sA')) t1
          = ((storage_incref st t1.storage).setStorage t1.storage (some sA')).setStorage
              t1.storage (some { sA' with ref_count := sA'.ref_count - 1 }) := by
        simp only [tensor_free, storage_decref, hcell2]
        rw [if_neg (by rw [hrcA]; omega)]
      have hlt2 : t1.storage < ((storage_incref st t1.storage).setStorage t1.storage
          (some sA')).storages.length := by
        simpa [State.setStorage] using hlt1
      have hcell3 : (((storage_incref st t1.storage).setStorage t1.storage
          (some sA')).setStorage t1.storage
            (some { sA' with ref_count := sA'.ref_count - 1 })).getStorage t1.storage
          = some { sA' with ref_count := sA'.ref_count - 1 } :=
        getD_set_self _ hlt2
      refine ⟨rfl, hincref, ?_, ?_⟩
      · exact tensor_getitem_ok_intro hlen2 hadj2 hcell2
          (by rw [hphys]; exact storage_getitem_eq sA' _ v s.data hdataA hbnd'.1 hbnd'.2)
      · rw [hfree]
        exact tensor_getitem_ok_intro hlen2 hadj2 hcell3
          (by rw [hphys]; exact storage_getitem_eq _ _ v s.data hdataA hbnd'.1 hbnd'.2)
    · cases hsetA

theorem formatFloat2_of_round (q : ℚ) (c : Int) (hq : ¬ q < 0) (hc : round (q * 100) = c) :
    formatFloat2 q = formatCents c := by
  unfold formatFloat2
  rw [if_neg hq, hc]

theorem tensor_to_string_of_fill (st : State) (t : Tensor) (str : String) (idx : List Int)
    (hrepr : t.repr = none)
    (hfill : fill_string st t t.ndim 0 (List.replicate t.ndim 0) = .ok (str, idx))
    (hfit : ¬ ((str.length : Int) + 1 > max_len t.shape)) :
    tensor_to_string st t = .ok ({ st with strs := st.strs ++ [some str] },
      { t with repr := some st.strs.length }, st.strs.length) := by
  simp only [tensor_to_string, hrepr]
  rw [hfill]
  simp only [Except.bind, Bind.bind]
  rw [if_neg hfit]

theorem tensor_to_string_overflow (st : State) (t : Tensor) (str : String) (idx : List Int)
    (hrepr : t.repr = none)
    (hfill : fill_string st t t.ndim 0 (List.replicate t.ndim 0) = .ok (str, idx))
    (hover : (str.length : Int) + 1 > max_len t.shape) :
    tensor_to_string st t = .error .bufferOverflow := by
  simp only [tensor_to_string, hrepr]
  rw [hfill]
  simp only [Except.bind, Bind.bind]
  rw [if_pos hover]

/-- C6 (code_bug evidence): arange(0.0, 1.0, shape=[3,4]) does hold 6.0 at
logical index [1,2], and the text the fill loop produces is exactly the
claimed nested two-decimal form of the twelve values 0.00 .. 11.00 — but
that text needs 81 bytes including the null terminator while
tensor_to_string's max_len computation allocates only 56, so on exactly
this input the C sprintf calls write 25 bytes past the heap allocation
(undefined behaviour) instead of delivering the claimed string; the model
returns the heap-overflow error. -/
theorem arange_concrete_overflow :
    tensor_getitem (tensor_arange State.empty 0 1 [3, 4] 0).1
      (tensor_arange State.empty 0 1 [3, 4] 0).2 [1, 2] = .ok (6, [1, 2]) ∧
    fill_string (tensor_arange State.empty 0 1 [3, 4] 0).1
      (tensor_arange State.empty 0 1 [3, 4] 0).2
      (tensor_arange State.empty 0 1 [3, 4] 0).2.ndim 0
      (List.replicate (tensor_arange State.empty 0 1 [3, 4] 0).2.ndim 0)
      = .ok ("[[0.00, 1.00, 2.00, 3.00], [4.00, 5.00, 6.00, 7.00], [8.00, 9.00, 10.00, 11.00]]",
        [2, 3]) ∧
    (("[[0.00, 1.00, 2.00, 3.00], [4.00, 5.00, 6.00, 7.00], [8.00, 9.00, 10.00, 11.00]]".length : Int)
      + 1 = 81) ∧
    max_len (tensor_arange State.empty 0 1 [3, 4] 0).2.shape = 56 ∧
    tensor_to_string (tensor_arange State.empty 0 1 [3, 4] 0).1
      (tensor_arange State.empty 0 1 [3, 4] 0).2 = .error .bufferOverflow := by
  have hdata : arangeFill 0 1 12 = [0, 1, 2, 3, 4, 5, 6, 7, 8, 9, 10, 11] := by
    norm_num [arangeFill]
  have f0 : formatFloat2 0 = "0.00" := by
    rw [formatFloat2_of_round 0 0 (by norm_num) (by norm_num [round_eq])]; decide
  have f1 : formatFloat2 1 = "1.00" := by
    rw [formatFloat2_of_round 1 100 (by norm_num) (by norm_num [round_eq])]; decide
  have f2 : formatFloat2 2 = "2.00" := by
    rw [formatFloat2_of_round 2 200 (by norm_num) (by norm_num [round_eq])]; decide
  have f3 : formatFloat2 3 = "3.00" := by
    rw [formatFloat2_of_round 3 300 (by norm_num) (by norm_num [round_eq])]; decide
  have f4 : formatFloat2 4 = "4.00" := by
    rw [formatFloat2_of_round 4 400 (by norm_num) (by norm_num [round_eq])]; decide
  have f5 : formatFloat2 5 = "5.00" := by
    rw [formatFloat2_of_round 5 500 (by norm_num) (by norm_num [round_eq])]; decide
  have f6 : formatFloat2 6 = "6.00" := by
    rw [formatFloat2_of_round 6 600 (by norm_num) (by norm_num [round_eq])]; decide
  have f7 : formatFloat2 7 = "7.00" := by
    rw [formatFloat2_of_round 7 700 (by norm_num) (by norm_num [round_eq])]; decide
  have f8 : formatFloat2 8 = "8.00" := by
    rw [formatFloat2_of_round 8 800 (by norm_num) (by norm_num [round_eq])]; decide
  have f9 : formatFloat2 9 = "9.00" := by
    rw [formatFloat2_of_round 9 900 (by norm_num) (by norm_num [round_eq])]; decide
  have f10 : formatFloat2 10 = "10.00" := by
    rw [formatFloat2_of_round 10 1000 (by norm_num) (by norm_num [round_eq])]; decide
  have f11 : formatFloat2 11 = "11.00" := by
    rw [formatFloat2_of_round 11 1100 (by norm_num) (by norm_num [round_eq])]; decide
  have hfill : fill_string (tensor_arange State.empty 0 1 [3, 4] 0).1
      (tensor_arange State.empty 0 1 [3, 4] 0).2
      (tensor_arange State.empty 0 1 [3, 4] 0).2.ndim 0
      (List.replicate (tensor_arange State.empty 0 1 [3, 4] 0).2.ndim 0)
      = .ok ("[[0.00, 1.00, 2.00, 3.00], [4.00, 5.00, 6.00, 7.00], [8.00, 9.00, 10.00, 11.00]]",
        [2, 3]) := by
    simp [fill_string, tensor_getitem, adjustLoop, adjust, logical_to_physical, sumProd,
      storage_getitem, hdata, f0, f1, f2, f3, f4, f5, f6, f7, f8, f9, f10, f11, Except.bind,
      Except.map, Except.pure, Bind.bind, Pure.pure, Functor.map, tensor_arange, tensor_empty,
      fillStorage, storage_new, State.getStorage, State.setStorage, State.allocStorage,
      State.empty, Storage.data_size, List.range_succ, computeStrides]
  refine ⟨?_, hfill, by decide, by decide, ?_⟩
  · simp [tensor_getitem, adjustLoop, adjust, logical_to_physical, sumProd, storage_getitem,
      tensor_arange, tensor_empty, fillStorage, storage_new, State.getStorage, State.setStorage,
      State.allocStorage, State.empty, Storage.data_size, computeStrides, hdata]
  · exact tensor_to_string_overflow (tensor_arange State.empty 0 1 [3, 4] 0).1
      (tensor_arange State.empty 0 1 [3, 4] 0).2
      "[[0.00, 1.00, 2.00, 3.00], [4.00, 5.00, 6.00, 7.00], [8.00, 9.00, 10.00, 11.00]]"
      [2, 3] rfl hfill (by decide)

/-- C7 (amended): the string representation is computed at most once per
tensor and tensor_to_string keeps returning the cached pointer, never
invalidating it — in particular, after mutating elements through set, a
later to_string still returns the stale cached buffer untouched.  (When the
earlier call happened through tensor_print the pointer is still returned,
but print has freed the buffer it points to — see the counterexample.) -/
theorem to_string_memoized (st st1 : State) (t t1 : Tensor) (i : Nat)
    (h : tensor_to_string st t = .ok (st1, t1, i)) :
    t1.repr = some i ∧
    tensor_to_string st1 t1 = .ok (st1, t1, i) ∧
    ∀ st2 idx v idx', tensor_setitem st1 t1 idx v = .ok (st2, idx') →
      tensor_to_string st2 t1 = .ok (st2, t1, i) ∧ st2.strs = st1.strs := by
  have hrepr : t1.repr = some i := by
    unfold tensor_to_string at h
    split at h
    · rename_i id hid
      injection h with h1
      injection h1 with h2 h3
      injection h3 with h4 h5
      subst h4
      subst h5
      exact hid
    · rename_i hnone
      cases hfs : fill_string st t t.ndim 0 (List.replicate t.ndim 0) with
      | error e => rw [hfs] at h; cases h
      | ok r =>
        rw [hfs] at h
        simp only [Except.bind, Bind.bind] at h
        split at h
        · cases h
        · injection h with h1
          injection h1 with h2 h3
          injection h3 with h4 h5
          subst h4
          subst h5
          rfl
  have hcached : tensor_to_string st1 t1 = .ok (st1, t1, i) := by
    unfold tensor_to_string
    rw [hrepr]
  refine ⟨hrepr, hcached, ?_⟩
  intro st2 idx v idx' hset
  obtain ⟨hlen, hadj, s, s', hs, hsv, hst2⟩ := tensor_setitem_ok_elim hset
  subst hst2
  constructor
  · unfold tensor_to_string
    rw [hrepr]
  · rfl

/-- Witness for C7's amended theorem: a tensor with a cached repr pointer
returns it unchanged from to_string, also after a set, and the set leaves
the string heap untouched. -/
theorem to_string_memoized_witness :
    cachedT.repr = some 5 ∧
    tensor_to_string cachedSt cachedT = .ok (cachedSt, cachedT, 5) ∧
    (tensor_to_string cachedSt2 cachedT = .ok (cachedSt2, cachedT, 5) ∧
      cachedSt2.strs = cachedSt.strs) := by
  have h := to_string_memoized cachedSt cachedSt cachedT cachedT 5 rfl
  exact ⟨h.1, h.2.1, h.2.2 cachedSt2 [0] 7 [0] (by decide)⟩

/-- Counterexample for C7 as stated: tensor_print frees the memoized buffer
while leaving t->repr pointing at it, so after a print the cached string
cell is gone (freed), a later tensor_to_string hands back a pointer to the
freed buffer, and a second print hits that dangling pointer instead of
printing the cached string again. -/
theorem print_frees_cached_repr :
    tensor_print ones1.1 ones1.2 = .ok (ones1Freed, ones1T, "[1.00]") ∧
    ones1T.repr = some 0 ∧
    ones1Freed.strs.getD 0 none = none ∧
    tensor_to_string ones1Freed ones1T = .ok (ones1Freed, ones1T, 0) ∧
    tensor_print ones1Freed ones1T = .error .danglingString := by
  have f1 : formatFloat2 1 = "1.00" := by
    rw [formatFloat2_of_round 1 100 (by norm_num) (by norm_num [round_eq])]; decide
  have hfill : fill_string ones1.1 ones1.2 ones1.2.ndim 0 (List.replicate ones1.2.ndim 0)
      = .ok ("[1.00]", [0]) := by
    simp [ones1, fill_string, tensor_getitem, adjustLoop, adjust, logical_to_physical,
      sumProd, storage_getitem, f1, Except.bind, Except.map, Except.pure, Bind.bind,
      Pure.pure, Functor.map, tensor_ones, tensor_empty, fillStorage, storage_new,
      State.getStorage, State.setStorage, State.allocStorage, State.empty, Storage.data_size,
      List.range_succ, computeStrides]
  have hts : tensor_to_string ones1.1 ones1.2 = .ok (ones1Str, ones1T, 0) := by
    rw [tensor_to_string_of_fill ones1.1 ones1.2 "[1.00]" [0] rfl hfill (by decide)]
    decide
  refine ⟨?_, by decide, by decide, by decide, by decide⟩
  unfold tensor_print
  rw [hts]
  decide

/-- Counterexample for C8 as stated: after to_string has cached a string,
tensor_free releases the storage (here the last reference, so the buffer is
deallocated) but does NOT release the cached string representation — the
string cell is still allocated afterwards. -/
theorem free_leaves_repr_allocated :
    tensor_to_string ones1.1 ones1.2 = .ok (ones1Str, ones1T, 0) ∧
    (tensor_free ones1Str ones1T).strs.getD 0 none = some "[1.00]" ∧
    (tensor_free ones1Str ones1T).getStorage ones1T.storage = none := by
  have f1 : formatFloat2 1 = "1.00" := by
    rw [formatFloat2_of_round 1 100 (by norm_num) (by norm_num [round_eq])]; decide
  have hfill : fill_string ones1.1 ones1.2 ones1.2.ndim 0 (List.replicate ones1.2.ndim 0)
      = .ok ("[1.00]", [0]) := by
    simp [ones1, fill_string, tensor_getitem, adjustLoop, adjust, logical_to_physical,
      sumProd, storage_getitem, f1, Except.bind, Except.map, Except.pure, Bind.bind,
      Pure.pure, Functor.map, tensor_ones, tensor_empty, fillStorage, storage_new,
      State.getStorage, State.setStorage, State.allocStorage, State.empty, Storage.data_size,
      List.range_succ, computeStrides]
  refine ⟨?_, by decide, by decide⟩
  rw [tensor_to_string_of_fill ones1.1 ones1.2 "[1.00]" [0] rfl hfill (by decide)]
  decide

/-- Witness for C3: the 3x4 empty tensor reshaped to 2x6; writing 99 at
[1, 2] through the original view is read back at [1, 0] of the reshaped
view (physical position 6), also after the original view is freed. -/
theorem reshape_aliasing_witness :
    reshaped26.storage = (tensor_empty State.empty [3, 4] 0).2.storage ∧
    (storage_incref (tensor_empty State.empty [3, 4] 0).1 0).getStorage
        (tensor_empty State.empty [3, 4] 0).2.storage
      = some { storage_new 12 0 with ref_count := (storage_new 12 0).ref_count + 1 } ∧
    tensor_getitem aliasSt2 reshaped26 [1, 0] = .ok (99, [1, 0]) ∧
    tensor_getitem (tensor_free aliasSt2 (tensor_empty State.empty [3, 4] 0).2)
      reshaped26 [1, 0] = .ok (99, [1, 0]) :=
  reshape_aliasing (tensor_empty State.empty [3, 4] 0).1 (tensor_empty State.empty [3, 4] 0).2
    [2, 6] (storage_new 12 0) (by decide) (by decide)
    (storage_incref (tensor_empty State.empty [3, 4] 0).1 0) reshaped26 (by decide)
    [1, 2] 99 aliasSt2 [1, 2] (by decide)
    [1, 0] [1, 0] (by decide) (by decide) (by decide)

end CTensor
